import Mathlib

/-!
Verification of the hypersync client core (hypersync-client/src/lib.rs) against
its specification. Pure parts of the code are embedded as Lean functions;
the HTTP transport is represented by oracle arguments, and parts of the
repository whose source is not available (stream.rs, config.rs, net-types)
are modelled from the specification, as marked on each definition.
-/

namespace Hypersync

/-- Modelled from the spec: the per-kind field selection of a `Query`
(hypersync-net-types, source not available): three sets of column names
for blocks, transactions and logs (spec section 3). -/
structure FieldSelection where
  block : Finset String
  transaction : Finset String
  log : Finset String
  deriving DecidableEq

/-- Modelled from the spec: the `Query` request descriptor
(hypersync-net-types, source not available): `from_block` inclusive,
optional exclusive `to_block`, and a field selection (spec section 3).
Per-kind filters are opaque to the core and omitted. -/
structure Query where
  from_block : Nat
  to_block : Option Nat
  field_selection : FieldSelection
  deriving DecidableEq

/-- Modelled from the spec: `StreamConfig` (config.rs, source not available),
with the recognized options of spec section 3. -/
structure StreamConfig where
  concurrency : Option Nat
  batch_size : Option Nat
  max_batch_size : Option Nat
  min_batch_size : Option Nat
  response_size_ceiling : Option Nat
  event_signature : Option String
  column_mapping : Option (List (String × String))
  hex_output : Bool

/-- Block join fields from `add_event_join_fields_to_selection` in lib.rs. -/
def BLOCK_JOIN_FIELDS : List String := ["number"]

/-- Transaction join fields from `add_event_join_fields_to_selection` in lib.rs. -/
def TX_JOIN_FIELDS : List String := ["block_number", "transaction_index"]

/-- Log join fields from `add_event_join_fields_to_selection` in lib.rs. -/
def LOG_JOIN_FIELDS : List String := ["log_index", "transaction_index", "block_number"]

/-- The `for field in FIELDS.iter() ... insert(field.to_string())` loops of
`add_event_join_fields_to_selection`: insert every listed field into the set. -/
def insertFields (s : Finset String) (fields : List String) : Finset String :=
  fields.foldl (fun acc f => insert f acc) s

/-- Embedding of `add_event_join_fields_to_selection` (lib.rs lines 433-457):
each of the three selection sets receives its join fields when it is
non-empty and is untouched when it is empty. -/
def add_event_join_fields_to_selection (query : Query) : Query :=
  { query with
    field_selection :=
      { block :=
          if query.field_selection.block = ∅ then query.field_selection.block
          else insertFields query.field_selection.block BLOCK_JOIN_FIELDS
        transaction :=
          if query.field_selection.transaction = ∅ then query.field_selection.transaction
          else insertFields query.field_selection.transaction TX_JOIN_FIELDS
        log :=
          if query.field_selection.log = ∅ then query.field_selection.log
          else insertFields query.field_selection.log LOG_JOIN_FIELDS } }

lemma insertFields_eq_union (s : Finset String) (l : List String) :
    insertFields s l = s ∪ l.toFinset := by
  induction l generalizing s with
  | nil => simp [insertFields]
  | cons a t ih =>
    show insertFields (insert a s) t = _
    rw [ih (insert a s)]
    ext x
    simp only [Finset.mem_union, Finset.mem_insert, List.mem_toFinset, List.mem_cons]
    tauto

/-- C5: `add_event_join_fields_to_selection` adds, by set union, exactly
`number` to a non-empty block selection, `block_number` and
`transaction_index` to a non-empty transaction selection, and `log_index`,
`transaction_index`, `block_number` to a non-empty log selection, and leaves
every empty selection set empty. -/
theorem add_event_join_fields_spec (q : Query) :
    ((add_event_join_fields_to_selection q).field_selection.block
      = if q.field_selection.block = ∅ then (∅ : Finset String)
        else q.field_selection.block ∪ {"number"})
    ∧ ((add_event_join_fields_to_selection q).field_selection.transaction
      = if q.field_selection.transaction = ∅ then (∅ : Finset String)
        else q.field_selection.transaction ∪ {"block_number", "transaction_index"})
    ∧ ((add_event_join_fields_to_selection q).field_selection.log
      = if q.field_selection.log = ∅ then (∅ : Finset String)
        else q.field_selection.log ∪ {"log_index", "transaction_index", "block_number"}) := by
  refine ⟨?_, ?_, ?_⟩ <;>
    simp only [add_event_join_fields_to_selection, insertFields_eq_union] <;>
    split <;>
    simp_all [BLOCK_JOIN_FIELDS, TX_JOIN_FIELDS, LOG_JOIN_FIELDS]

/-- C6: applying `add_event_join_fields_to_selection` twice yields the same
query as applying it once. -/
theorem add_event_join_fields_idempotent (q : Query) :
    add_event_join_fields_to_selection (add_event_join_fields_to_selection q)
      = add_event_join_fields_to_selection q := by
  cases q with
  | mk fb tb fs =>
    cases fs with
    | mk b t l =>
      simp only [add_event_join_fields_to_selection, insertFields_eq_union,
        Query.mk.injEq, FieldSelection.mk.injEq]
      refine ⟨trivial, trivial, ?_, ?_, ?_⟩
      · by_cases hb : b = ∅
        · simp [hb]
        · have hne : b ∪ BLOCK_JOIN_FIELDS.toFinset ≠ ∅ := by
            simp [BLOCK_JOIN_FIELDS, Finset.union_eq_empty]
          simp only [if_neg hb, if_neg hne]
          ext x
          simp only [Finset.mem_union, List.mem_toFinset]
          tauto
      · by_cases ht : t = ∅
        · simp [ht]
        · have hne : t ∪ TX_JOIN_FIELDS.toFinset ≠ ∅ := by
            simp [TX_JOIN_FIELDS, Finset.union_eq_empty]
          simp only [if_neg ht, if_neg hne]
          ext x
          simp only [Finset.mem_union, List.mem_toFinset]
          tauto
      · by_cases hl : l = ∅
        · simp [hl]
        · have hne : l ∪ LOG_JOIN_FIELDS.toFinset ≠ ∅ := by
            simp [LOG_JOIN_FIELDS, Finset.union_eq_empty]
          simp only [if_neg hl, if_neg hne]
          ext x
          simp only [Finset.mem_union, List.mem_toFinset]
          tauto

/-- Row-oriented response data of a `QueryResponse` (types.rs via FromArrow;
batches are opaque to the core, represented by a type parameter). -/
structure ResponseData (α : Type) where
  blocks : List α
  transactions : List α
  logs : List α
  traces : List α
  deriving DecidableEq

/-- `QueryResponse` (spec section 3): height, resume cursor, timing, data and
an optional rollback guard (its payload is opaque, represented by a `Nat`). -/
structure QueryResponse (α : Type) where
  archive_height : Option Nat
  next_block : Nat
  total_execution_time : Nat
  data : ResponseData α
  rollback_guard : Option Nat
  deriving DecidableEq

/-- Columnar response data of an `ArrowResponse`: the four kinds plus
`decoded_logs`. -/
structure ArrowResponseData (α : Type) where
  blocks : List α
  transactions : List α
  logs : List α
  traces : List α
  decoded_logs : List α
  deriving DecidableEq

/-- `ArrowResponse` (spec section 3). -/
structure ArrowResponse (α : Type) where
  archive_height : Option Nat
  next_block : Nat
  total_execution_time : Nat
  data : ArrowResponseData α
  rollback_guard : Option Nat
  deriving DecidableEq

/-- `EventResponse`: same top-level shape, data is one list of joined events
per stream element. -/
structure EventResponse (ε : Type) where
  archive_height : Option Nat
  next_block : Nat
  total_execution_time : Nat
  data : List (List ε)
  rollback_guard : Option Nat
  deriving DecidableEq

/-- Embedding of `check_simple_stream_params` (lib.rs lines 422-431). -/
def check_simple_stream_params (config : StreamConfig) : Except String Unit :=
  if config.event_signature.isSome then
    .error "config.event_signature cant be passed to simple type function. User is expected to decode the logs using Decoder."
  else if config.column_mapping.isSome then
    .error "config.column_mapping cant be passed to single type function. User is expected to map values manually."
  else
    .ok ()

/-- The four per-kind `push` loops of `collect` (lib.rs lines 95-106):
append every batch of the new response to the accumulated data. -/
def appendResponseData {α : Type} (acc new : ResponseData α) : ResponseData α :=
  { blocks := acc.blocks ++ new.blocks
    transactions := acc.transactions ++ new.transactions
    logs := acc.logs ++ new.logs
    traces := acc.traces ++ new.traces }

/-- The five per-kind `push` loops of `collect_arrow` (lib.rs lines 178-192). -/
def appendArrowResponseData {α : Type} (acc new : ArrowResponseData α) : ArrowResponseData α :=
  { blocks := acc.blocks ++ new.blocks
    transactions := acc.transactions ++ new.transactions
    logs := acc.logs ++ new.logs
    traces := acc.traces ++ new.traces
    decoded_logs := acc.decoded_logs ++ new.decoded_logs }

/-- The `while let Some(res) = recv.recv()` loop of `collect`
(lib.rs lines 91-119): each received element is unwrapped (an `Err` aborts
the whole call), converted to a `QueryResponse` by the external FromArrow
collaborator `conv`, its batches appended, and `archive_height` /
`next_block` overwritten while `total_execution_time` accumulates.
The final response carries `rollback_guard: None`. -/
def collectLoop {α β : Type} (conv : ArrowResponse α → QueryResponse β)
    (acc : ResponseData β) (ah : Option Nat) (nb tot : Nat) :
    List (Except String (ArrowResponse α)) → Except String (QueryResponse β)
  | [] => .ok { archive_height := ah, next_block := nb, total_execution_time := tot,
                data := acc, rollback_guard := none }
  | .error e :: _ => .error ("get response: " ++ e)
  | .ok r :: rest =>
    collectLoop conv (appendResponseData acc (conv r).data) (conv r).archive_height
      (conv r).next_block (tot + (conv r).total_execution_time) rest

/-- Embedding of `Client::collect` (lib.rs lines 75-120). The HTTP/stream
layer is the oracle `server`, mapping the query that is handed to
`stream::stream_arrow` to the sequence of channel elements it delivers. -/
def collect {α β : Type} (conv : ArrowResponse α → QueryResponse β)
    (config : StreamConfig) (query : Query)
    (server : Query → List (Except String (ArrowResponse α))) :
    Except String (QueryResponse β) :=
  match check_simple_stream_params config with
  | .error e => .error e
  | .ok _ => collectLoop conv ⟨[], [], [], []⟩ none 0 0 (server query)

/-- The receive loop of `collect_events` (lib.rs lines 140-158): like
`collect`, but each converted response is reduced to its list of joined
events by the external collaborator `toEvents` and pushed as one element. -/
def collectEventsLoop {α β ε : Type} (conv : ArrowResponse α → QueryResponse β)
    (toEvents : ResponseData β → List ε)
    (acc : List (List ε)) (ah : Option Nat) (nb tot : Nat) :
    List (Except String (ArrowResponse α)) → Except String (EventResponse ε)
  | [] => .ok { archive_height := ah, next_block := nb, total_execution_time := tot,
                data := acc, rollback_guard := none }
  | .error e :: _ => .error ("get response: " ++ e)
  | .ok r :: rest =>
    collectEventsLoop conv toEvents (acc ++ [toEvents (conv r).data])
      (conv r).archive_height (conv r).next_block
      (tot + (conv r).total_execution_time) rest

/-- Embedding of `Client::collect_events` (lib.rs lines 122-159): checks the
config, augments the query with the event join fields, then drains the
stream started on the augmented query. -/
def collect_events {α β ε : Type} (conv : ArrowResponse α → QueryResponse β)
    (toEvents : ResponseData β → List ε)
    (config : StreamConfig) (query : Query)
    (server : Query → List (Except String (ArrowResponse α))) :
    Except String (EventResponse ε) :=
  match check_simple_stream_params config with
  | .error e => .error e
  | .ok _ => collectEventsLoop conv toEvents [] none 0 0
      (server (add_event_join_fields_to_selection query))

/-- The receive loop of `collect_arrow` (lib.rs lines 175-205). -/
def collectArrowLoop {α : Type} (acc : ArrowResponseData α) (ah : Option Nat) (nb tot : Nat) :
    List (Except String (ArrowResponse α)) → Except String (ArrowResponse α)
  | [] => .ok { archive_height := ah, next_block := nb, total_execution_time := tot,
                data := acc, rollback_guard := none }
  | .error e :: _ => .error ("get response: " ++ e)
  | .ok r :: rest =>
    collectArrowLoop (appendArrowResponseData acc r.data) r.archive_height
      r.next_block (tot + r.total_execution_time) rest

/-- Embedding of `Client::collect_arrow` (lib.rs lines 161-206).
It performs no `check_simple_stream_params` check, faithful to the source. -/
def collect_arrow {α : Type} (config : StreamConfig) (query : Query)
    (server : Query → List (Except String (ArrowResponse α))) :
    Except String (ArrowResponse α) :=
  collectArrowLoop ⟨[], [], [], [], []⟩ none 0 0 (server query)

/-- The forwarding task of `stream` and `stream_events`
(lib.rs lines 362-374 and 396-408): elements are passed through until the
first error, which is forwarded and then the task returns. -/
def forwardResponses {β : Type} : List (Except String β) → List (Except String β)
  | [] => []
  | .ok r :: rest => .ok r :: forwardResponses rest
  | .error e :: _ => [.error e]

/-- Embedding of `Client::stream` (lib.rs lines 347-377): checks the config,
then forwards the inner arrow stream converted per element by the external
FromArrow collaborator `conv`. The returned list is the content of the
output channel. -/
def stream {α β : Type} (conv : ArrowResponse α → QueryResponse β)
    (config : StreamConfig) (query : Query)
    (server : Query → List (Except String (ArrowResponse α))) :
    Except String (List (Except String (QueryResponse β))) :=
  match check_simple_stream_params config with
  | .error e => .error e
  | .ok _ => .ok (forwardResponses ((server query).map (Except.map conv)))

/-- Embedding of `Client::stream_events` (lib.rs lines 379-411): checks the
config, augments the query, then forwards the inner stream converted by the
external collaborator `convE`. -/
def stream_events {α ε : Type} (convE : ArrowResponse α → EventResponse ε)
    (config : StreamConfig) (query : Query)
    (server : Query → List (Except String (ArrowResponse α))) :
    Except String (List (Except String (EventResponse ε))) :=
  match check_simple_stream_params config with
  | .error e => .error e
  | .ok _ => .ok (forwardResponses
      ((server (add_event_join_fields_to_selection query)).map (Except.map convE)))

/-- Embedding of `Client::stream_arrow` (lib.rs lines 413-419): delegates to
`stream::stream_arrow` on the unchanged query. -/
def stream_arrow {α : Type} (query : Query)
    (server : Query → List (Except String (ArrowResponse α))) :
    List (Except String (ArrowResponse α)) :=
  server query

/-- The retry loop shared by `get_height` (lib.rs lines 240-269) and
`get_arrow` (lib.rs lines 316-345): attempt `impl_ i`; on success return
after that one attempt, on failure chain the error onto the accumulator
(`err = err.context(e)`, most recent first) and try again while the budget
lasts. The second component counts how many attempts were made. -/
def retryGo {A : Type} (impl_ : Nat → Except String A) :
    List String → Nat → Nat → Except (List String) A × Nat
  | err, _, 0 => (.error err, 0)
  | err, i, r + 1 =>
    match impl_ i with
    | .ok v => (.ok v, 1)
    | .error e =>
      let p := retryGo impl_ (e :: err) (i + 1) r
      (p.1, p.2 + 1)

/-- `ArchiveHeight` (spec section 3): an optional height. -/
structure ArchiveHeight where
  height : Option Nat
  deriving DecidableEq

/-- The observable part of an HTTP response to `GET /height`: whether the
status was a success, and the result of deserialising the JSON body. -/
structure HttpRes where
  success : Bool
  json : Except String ArchiveHeight

/-- Embedding of `Client::get_height_impl` (lib.rs lines 217-238): the result
of the HTTP send is the oracle argument; a non-success status is an error,
otherwise the body is deserialised and an absent height becomes 0. -/
def get_height_impl (send : Except String HttpRes) : Except String Nat :=
  match send with
  | .error e => .error ("execute http req: " ++ e)
  | .ok res =>
    if !res.success then .error "http response status code"
    else
      match res.json with
      | .error e => .error ("read response body json: " ++ e)
      | .ok h => .ok (h.height.getD 0)

/-- Embedding of `Client::get_height` (lib.rs lines 240-269): the retry loop
around one height request per attempt. -/
def get_height (impl_ : Nat → Except String Nat) (max_num_retries : Nat) :
    Except (List String) Nat × Nat :=
  retryGo impl_ [] 0 max_num_retries

/-- Embedding of `Client::get_arrow` (lib.rs lines 316-345): the retry loop
around `get_arrow_impl` on the unchanged query; `impl_` is the transport
oracle giving each attempt's outcome. -/
def get_arrow {R : Type} (query : Query) (impl_ : Query → Nat → Except String R)
    (max_num_retries : Nat) : Except (List String) R × Nat :=
  retryGo (impl_ query) [] 0 max_num_retries

/-- Embedding of `Client::get` (lib.rs lines 271-274): `get_arrow` on the
unchanged query, converted by the external FromArrow collaborator. -/
def get {R Q' : Type} (conv : R → Q') (query : Query)
    (impl_ : Query → Nat → Except String R) (max_num_retries : Nat) :
    Except (List String) Q' :=
  (get_arrow query impl_ max_num_retries).1.map conv

/-- Embedding of `Client::get_events` (lib.rs lines 276-280): augments the
query with the event join fields, then `get_arrow` plus conversion. -/
def get_events {R E' : Type} (conv : R → E') (query : Query)
    (impl_ : Query → Nat → Except String R) (max_num_retries : Nat) :
    Except (List String) E' :=
  (get_arrow (add_event_join_fields_to_selection query) impl_ max_num_retries).1.map conv

/-- `fastrange_rs::fastrange_64` on a 64-bit word: multiply-shift mapping of
a random word into `[0, p)`. -/
def fastrange_64 (x p : Nat) : Nat :=
  x % 2 ^ 64 * p / 2 ^ 64

/-- The evolution of `base` in the retry loops (lib.rs lines 241, 257-265):
`base` starts at `retry_base_ms` and after each failed attempt becomes
`min (base + retry_backoff_ms) retry_ceiling_ms`. `baseSeq B b c i` is the
value used for the sleep after attempt `i`. -/
def baseSeq (B b c : Nat) : Nat → Nat
  | 0 => B
  | i + 1 => min (baseSeq B b c i + b) c

/-- The full sleep before attempt `i+1`: `base + jitter` where the jitter is
`fastrange_64` of the random word `x` into `[0, retry_backoff_ms)`
(lib.rs lines 257-263). -/
def delayBeforeAttempt (B b c i x : Nat) : Nat :=
  baseSeq B b c i + fastrange_64 x b

lemma collectLoop_map_ok {α β : Type} (conv : ArrowResponse α → QueryResponse β) :
    ∀ (rs : List (ArrowResponse α)) (acc : ResponseData β) (ah : Option Nat) (nb tot : Nat),
      collectLoop conv acc ah nb tot (rs.map Except.ok)
        = .ok { archive_height := rs.foldl (fun _ r => (conv r).archive_height) ah
                next_block := rs.foldl (fun _ r => (conv r).next_block) nb
                total_execution_time := rs.foldl (fun t r => t + (conv r).total_execution_time) tot
                data := rs.foldl (fun a r => appendResponseData a (conv r).data) acc
                rollback_guard := none }
  | [], _, _, _, _ => rfl
  | r :: rest, acc, ah, nb, tot => by
    show collectLoop conv (appendResponseData acc (conv r).data) (conv r).archive_height
      (conv r).next_block (tot + (conv r).total_execution_time) (rest.map Except.ok) = _
    rw [collectLoop_map_ok conv rest]
    rfl

lemma foldl_const_getLast? {γ δ : Type} (f : γ → δ) :
    ∀ (rs : List γ) (init : δ),
      rs.foldl (fun _ r => f r) init = (rs.getLast?.map f).getD init
  | [], _ => rfl
  | a :: t, init => by
    show t.foldl (fun _ r => f r) (f a) = _
    rw [foldl_const_getLast? f t (f a)]
    cases t with
    | nil => rfl
    | cons b t' =>
      rw [List.getLast?_cons_cons]
      obtain ⟨x, hx⟩ := Option.isSome_iff_exists.mp
        (show ((b :: t').getLast?).isSome = true from List.getLast?_isSome.mpr (by simp))
      rw [hx]
      rfl

lemma foldl_add_sum {γ : Type} (g : γ → Nat) :
    ∀ (rs : List γ) (tot : Nat),
      rs.foldl (fun t r => t + g r) tot = tot + (rs.map g).sum
  | [], tot => by simp
  | a :: t, tot => by
    show t.foldl (fun t r => t + g r) (tot + g a) = _
    rw [foldl_add_sum g t (tot + g a)]
    simp [List.sum_cons]
    omega

lemma foldl_appendResponseData {γ β : Type} (g : γ → ResponseData β) :
    ∀ (rs : List γ) (acc : ResponseData β),
      rs.foldl (fun a r => appendResponseData a (g r)) acc
        = { blocks := acc.blocks ++ (rs.map fun r => (g r).blocks).flatten
            transactions := acc.transactions ++ (rs.map fun r => (g r).transactions).flatten
            logs := acc.logs ++ (rs.map fun r => (g r).logs).flatten
            traces := acc.traces ++ (rs.map fun r => (g r).traces).flatten }
  | [], acc => by cases acc; simp
  | a :: t, acc => by
    show t.foldl (fun a r => appendResponseData a (g r)) (appendResponseData acc (g a)) = _
    rw [foldl_appendResponseData g t]
    simp [appendResponseData]

lemma collectLoop_error {α β : Type} (conv : ArrowResponse α → QueryResponse β) :
    ∀ (l : List (Except String (ArrowResponse α))) (acc : ResponseData β)
      (ah : Option Nat) (nb tot : Nat),
      (∃ e, Except.error e ∈ l) →
      ∃ ef, collectLoop conv acc ah nb tot l = .error ef
  | [], _, _, _, _, h => by
    obtain ⟨e, he⟩ := h
    simp at he
  | .error e :: _, _, _, _, _, _ => ⟨"get response: " ++ e, rfl⟩
  | .ok r :: rest, acc, ah, nb, tot, h => by
    obtain ⟨e, he⟩ := h
    have hrest : Except.error e ∈ rest := by
      rcases List.mem_cons.mp he with h1 | h2
      · exact absurd h1 (by simp)
      · exact h2
    show ∃ ef, collectLoop conv (appendResponseData acc (conv r).data)
      (conv r).archive_height (conv r).next_block
      (tot + (conv r).total_execution_time) rest = .error ef
    exact collectLoop_error conv rest _ _ _ _ ⟨e, hrest⟩

lemma check_simple_stream_params_ok {config : StreamConfig}
    (hsig : config.event_signature = none) (hmap : config.column_mapping = none) :
    check_simple_stream_params config = .ok () := by
  simp [check_simple_stream_params, hsig, hmap]

/-- C2: when every element received from the stream is a success, `collect`
returns a `QueryResponse` whose data concatenates the batches of all
responses in arrival order, whose `archive_height` and `next_block` are
those of the last response, and whose `total_execution_time` is the sum over
all responses; when any received element is an error, `collect` returns an
error (so no aggregated data is produced). -/
theorem collect_aggregates {α β : Type} (conv : ArrowResponse α → QueryResponse β)
    (config : StreamConfig) (query : Query)
    (hsig : config.event_signature = none) (hmap : config.column_mapping = none)
    (rs : List (ArrowResponse α)) (hne : rs ≠ []) :
    (∃ resp, collect conv config query (fun _ => rs.map Except.ok) = .ok resp
      ∧ resp.data.blocks = (rs.map fun r => (conv r).data.blocks).flatten
      ∧ resp.data.transactions = (rs.map fun r => (conv r).data.transactions).flatten
      ∧ resp.data.logs = (rs.map fun r => (conv r).data.logs).flatten
      ∧ resp.data.traces = (rs.map fun r => (conv r).data.traces).flatten
      ∧ resp.archive_height = (conv (rs.getLast hne)).archive_height
      ∧ resp.next_block = (conv (rs.getLast hne)).next_block
      ∧ resp.total_execution_time = (rs.map fun r => (conv r).total_execution_time).sum)
    ∧ ∀ (server : Query → List (Except String (ArrowResponse α))),
        (∃ e, Except.error e ∈ server query) →
        ∃ ef, collect conv config query server = .error ef := by
  constructor
  · refine ⟨{ archive_height := (conv (rs.getLast hne)).archive_height
              next_block := (conv (rs.getLast hne)).next_block
              total_execution_time := (rs.map fun r => (conv r).total_execution_time).sum
              data := { blocks := (rs.map fun r => (conv r).data.blocks).flatten
                        transactions := (rs.map fun r => (conv r).data.transactions).flatten
                        logs := (rs.map fun r => (conv r).data.logs).flatten
                        traces := (rs.map fun r => (conv r).data.traces).flatten }
              rollback_guard := none }, ?_, rfl, rfl, rfl, rfl, rfl, rfl, rfl⟩
    unfold collect
    rw [check_simple_stream_params_ok hsig hmap]
    rw [collectLoop_map_ok conv rs]
    rw [foldl_appendResponseData (fun r => (conv r).data) rs,
      foldl_const_getLast? (fun r => (conv r).archive_height) rs,
      foldl_const_getLast? (fun r => (conv r).next_block) rs,
      foldl_add_sum (fun r => (conv r).total_execution_time) rs,
      List.getLast?_eq_getLast rs hne]
    simp
  · intro server herr
    unfold collect
    rw [check_simple_stream_params_ok hsig hmap]
    exact collectLoop_error conv (server query) _ _ _ _ herr

/-- Witness for C2 at a concrete two-element stream. -/
theorem collect_aggregates_witness :
    ∃ resp,
      collect (fun r : ArrowResponse Nat =>
          ({ archive_height := r.archive_height, next_block := r.next_block,
             total_execution_time := r.total_execution_time,
             data := ⟨r.data.blocks, r.data.transactions, r.data.logs, r.data.traces⟩,
             rollback_guard := r.rollback_guard } : QueryResponse Nat))
        ⟨none, none, none, none, none, none, none, false⟩
        ⟨0, none, ⟨∅, ∅, ∅⟩⟩
        (fun _ => [⟨some 1, 10, 5, ⟨[1], [], [], [], []⟩, none⟩,
                   ⟨some 2, 20, 7, ⟨[9], [], [], [], []⟩, some 3⟩].map Except.ok)
        = .ok resp
      ∧ resp.next_block = 20 ∧ resp.total_execution_time = 12 := by
  obtain ⟨resp, h1, _, _, _, _, _, h7, h8⟩ :=
    (collect_aggregates
      (fun r : ArrowResponse Nat =>
          ({ archive_height := r.archive_height, next_block := r.next_block,
             total_execution_time := r.total_execution_time,
             data := ⟨r.data.blocks, r.data.transactions, r.data.logs, r.data.traces⟩,
             rollback_guard := r.rollback_guard } : QueryResponse Nat))
      ⟨none, none, none, none, none, none, none, false⟩
      ⟨0, none, ⟨∅, ∅, ∅⟩⟩ rfl rfl
      [⟨some 1, 10, 5, ⟨[1], [], [], [], []⟩, none⟩,
       ⟨some 2, 20, 7, ⟨[9], [], [], [], []⟩, some 3⟩] (by simp)).1
  refine ⟨resp, h1, ?_, ?_⟩
  · rw [h7]
    rfl
  · rw [h8]
    rfl

lemma check_simple_stream_params_error {config : StreamConfig}
    (hbad : config.event_signature.isSome ∨ config.column_mapping.isSome) :
    ∃ e, check_simple_stream_params config = .error e := by
  by_cases h1 : config.event_signature.isSome
  · exact ⟨"config.event_signature cant be passed to simple type function. User is expected to decode the logs using Decoder.",
      by simp [check_simple_stream_params, h1]⟩
  · have h2 := hbad.resolve_left h1
    exact ⟨"config.column_mapping cant be passed to single type function. User is expected to map values manually.",
      by simp [check_simple_stream_params, h1, h2]⟩

/-- C7: a `StreamConfig` with `event_signature` or `column_mapping` set makes
`collect`, `collect_events`, `stream` and `stream_events` fail for every
possible transport behaviour (the `server` oracle is never consulted), i.e.
before any HTTP request is issued. -/
theorem config_rejected_before_any_request {α β ε : Type} (config : StreamConfig)
    (hbad : config.event_signature.isSome ∨ config.column_mapping.isSome) :
    (∀ (conv : ArrowResponse α → QueryResponse β) (query : Query)
       (server : Query → List (Except String (ArrowResponse α))),
        ∃ e, collect conv config query server = .error e)
    ∧ (∀ (conv : ArrowResponse α → QueryResponse β) (toEvents : ResponseData β → List ε)
         (query : Query) (server : Query → List (Except String (ArrowResponse α))),
        ∃ e, collect_events conv toEvents config query server = .error e)
    ∧ (∀ (conv : ArrowResponse α → QueryResponse β) (query : Query)
         (server : Query → List (Except String (ArrowResponse α))),
        ∃ e, stream conv config query server = .error e)
    ∧ (∀ (convE : ArrowResponse α → EventResponse ε) (query : Query)
         (server : Query → List (Except String (ArrowResponse α))),
        ∃ e, stream_events convE config query server = .error e) := by
  obtain ⟨e, he⟩ := check_simple_stream_params_error hbad
  refine ⟨?_, ?_, ?_, ?_⟩
  · intro conv query server
    refine ⟨e, ?_⟩
    unfold collect
    rw [he]
  · intro conv toEvents query server
    refine ⟨e, ?_⟩
    unfold collect_events
    rw [he]
  · intro conv query server
    refine ⟨e, ?_⟩
    unfold stream
    rw [he]
  · intro convE query server
    refine ⟨e, ?_⟩
    unfold stream_events
    rw [he]

/-- Witness for C7 at a concrete config carrying an event signature. -/
theorem config_rejected_witness :
    ∃ e, collect (fun r : ArrowResponse Nat =>
        ({ archive_height := r.archive_height, next_block := r.next_block,
           total_execution_time := r.total_execution_time,
           data := ⟨r.data.blocks, r.data.transactions, r.data.logs, r.data.traces⟩,
           rollback_guard := r.rollback_guard } : QueryResponse Nat))
      ⟨none, none, none, none, none, some "Transfer(address,address,uint256)", none, false⟩
      ⟨0, none, ⟨∅, ∅, ∅⟩⟩ (fun _ => []) = .error e :=
  (@config_rejected_before_any_request Nat Nat Nat
    ⟨none, none, none, none, none, some "Transfer(address,address,uint256)", none, false⟩
    (Or.inl rfl)).1 _ _ _

lemma collectLoop_ok_rollback_none {α β : Type} (conv : ArrowResponse α → QueryResponse β) :
    ∀ (l : List (Except String (ArrowResponse α))) (acc : ResponseData β)
      (ah : Option Nat) (nb tot : Nat) (resp : QueryResponse β),
      collectLoop conv acc ah nb tot l = .ok resp → resp.rollback_guard = none
  | [], _, _, _, _, resp => by
    intro h
    injection h with h
    rw [← h]
  | .error e :: _, _, _, _, _, resp => by
    intro h
    exact absurd h (by simp [collectLoop])
  | .ok r :: rest, acc, ah, nb, tot, resp => by
    intro h
    exact collectLoop_ok_rollback_none conv rest _ _ _ _ resp h

lemma collectEventsLoop_ok_rollback_none {α β ε : Type}
    (conv : ArrowResponse α → QueryResponse β) (toEvents : ResponseData β → List ε) :
    ∀ (l : List (Except String (ArrowResponse α))) (acc : List (List ε))
      (ah : Option Nat) (nb tot : Nat) (resp : EventResponse ε),
      collectEventsLoop conv toEvents acc ah nb tot l = .ok resp →
      resp.rollback_guard = none
  | [], _, _, _, _, resp => by
    intro h
    injection h with h
    rw [← h]
  | .error e :: _, _, _, _, _, resp => by
    intro h
    exact absurd h (by simp [collectEventsLoop])
  | .ok r :: rest, acc, ah, nb, tot, resp => by
    intro h
    exact collectEventsLoop_ok_rollback_none conv toEvents rest _ _ _ _ resp h

lemma collectArrowLoop_ok_rollback_none {α : Type} :
    ∀ (l : List (Except String (ArrowResponse α))) (acc : ArrowResponseData α)
      (ah : Option Nat) (nb tot : Nat) (resp : ArrowResponse α),
      collectArrowLoop acc ah nb tot l = .ok resp → resp.rollback_guard = none
  | [], _, _, _, _, resp => by
    intro h
    injection h with h
    rw [← h]
  | .error e :: _, _, _, _, _, resp => by
    intro h
    exact absurd h (by simp [collectArrowLoop])
  | .ok r :: rest, acc, ah, nb, tot, resp => by
    intro h
    exact collectArrowLoop_ok_rollback_none rest _ _ _ _ resp h

/-- C10: any successful aggregate produced by `collect`, `collect_events` or
`collect_arrow` has `rollback_guard = none`, whatever rollback guards the
individual stream responses carried. -/
theorem collect_rollback_guard_none {α β ε : Type}
    (conv : ArrowResponse α → QueryResponse β) (toEvents : ResponseData β → List ε)
    (config : StreamConfig) (query : Query)
    (server : Query → List (Except String (ArrowResponse α))) :
    (∀ resp, collect conv config query server = .ok resp → resp.rollback_guard = none)
    ∧ (∀ resp, collect_events conv toEvents config query server = .ok resp →
        resp.rollback_guard = none)
    ∧ (∀ resp, collect_arrow config query server = .ok resp →
        resp.rollback_guard = none) := by
  refine ⟨?_, ?_, ?_⟩
  · intro resp h
    unfold collect at h
    cases hc : check_simple_stream_params config with
    | error e => rw [hc] at h; exact absurd h (by simp)
    | ok u => rw [hc] at h; exact collectLoop_ok_rollback_none conv _ _ _ _ _ resp h
  · intro resp h
    unfold collect_events at h
    cases hc : check_simple_stream_params config with
    | error e => rw [hc] at h; exact absurd h (by simp)
    | ok u => rw [hc] at h;
              exact collectEventsLoop_ok_rollback_none conv toEvents _ _ _ _ _ resp h
  · intro resp h
    exact collectArrowLoop_ok_rollback_none _ _ _ _ _ resp h

/-- Witness for C10: a one-element stream whose response carries a rollback
guard still aggregates to `rollback_guard = none`. -/
theorem collect_rollback_guard_none_witness :
    collect_arrow ⟨none, none, none, none, none, none, none, false⟩
        ⟨0, none, ⟨∅, ∅, ∅⟩⟩
        (fun _ => [Except.ok (⟨some 1, 10, 5, ⟨[1], [], [], [], []⟩, some 7⟩ :
          ArrowResponse Nat)])
      = .ok ⟨some 1, 10, 5, ⟨[1], [], [], [], []⟩, none⟩
    ∧ (⟨some 1, 10, 5, ⟨[1], [], [], [], []⟩, none⟩ :
        ArrowResponse Nat).rollback_guard = none :=
  ⟨rfl,
    (collect_rollback_guard_none
      (fun r : ArrowResponse Nat =>
        ({ archive_height := r.archive_height, next_block := r.next_block,
           total_execution_time := r.total_execution_time,
           data := ⟨r.data.blocks, r.data.transactions, r.data.logs, r.data.traces⟩,
           rollback_guard := r.rollback_guard } : QueryResponse Nat))
      (fun d => d.blocks)
      ⟨none, none, none, none, none, none, none, false⟩
      ⟨0, none, ⟨∅, ∅, ∅⟩⟩
      (fun _ => [Except.ok (⟨some 1, 10, 5, ⟨[1], [], [], [], []⟩, some 7⟩ :
        ArrowResponse Nat)])).2.2
      ⟨some 1, 10, 5, ⟨[1], [], [], [], []⟩, none⟩ rfl⟩

lemma retryGo_all_fail {A : Type} (impl_ : Nat → Except String A) (es : Nat → String) :
    ∀ (r i : Nat) (err : List String),
      (∀ j, j < r → impl_ (i + j) = .error (es (i + j))) →
      ∃ chain, retryGo impl_ err i r = (.error chain, r)
        ∧ (∀ e ∈ err, e ∈ chain) ∧ ∀ j, j < r → es (i + j) ∈ chain
  | 0, i, err, _ => ⟨err, rfl, fun _ he => he, fun j hj => absurd hj (by omega)⟩
  | r + 1, i, err, h => by
    have h0 : impl_ i = .error (es i) := by
      have := h 0 (by omega)
      simpa using this
    obtain ⟨chain, hrun, hsub, hmem⟩ := retryGo_all_fail impl_ es r (i + 1) (es i :: err)
      (fun j hj => by
        have hh := h (j + 1) (by omega)
        rw [show i + (j + 1) = i + 1 + j by omega] at hh
        exact hh)
    refine ⟨chain, ?_, ?_, ?_⟩
    · simp only [retryGo]
      rw [h0]
      show ((retryGo impl_ (es i :: err) (i + 1) r).1,
        (retryGo impl_ (es i :: err) (i + 1) r).2 + 1) = _
      rw [hrun]
    · intro e he
      exact hsub e (List.mem_cons_of_mem _ he)
    · intro j hj
      cases j with
      | zero => exact hsub (es (i + 0)) (by simp)
      | succ j' =>
        have := hmem j' (by omega)
        rw [show i + 1 + j' = i + (j' + 1) by omega] at this
        exact this

/-- C3: when the underlying request fails on every attempt, `get_height` and
`get_arrow` invoke it exactly `max_num_retries` times and return an error
whose cause chain contains every intermediate error. -/
theorem retry_exhaustion {α : Type} (n : Nat) (es : Nat → String)
    (implH : Nat → Except String Nat) (query : Query)
    (implA : Query → Nat → Except String (ArrowResponse α))
    (hH : ∀ i, i < n → implH i = .error (es i))
    (hA : ∀ i, i < n → implA query i = .error (es i)) :
    ((get_height implH n).2 = n
      ∧ ∃ chain, (get_height implH n).1 = .error chain ∧ ∀ i, i < n → es i ∈ chain)
    ∧ ((get_arrow query implA n).2 = n
      ∧ ∃ chain, (get_arrow query implA n).1 = .error chain ∧ ∀ i, i < n → es i ∈ chain) := by
  obtain ⟨chainH, hrunH, _, hmemH⟩ := retryGo_all_fail implH es n 0 []
    (fun j hj => by simpa using hH j hj)
  obtain ⟨chainA, hrunA, _, hmemA⟩ := retryGo_all_fail (implA query) es n 0 []
    (fun j hj => by simpa using hA j hj)
  constructor
  · constructor
    · show (retryGo implH [] 0 n).2 = n
      rw [hrunH]
    · refine ⟨chainH, ?_, ?_⟩
      · show (retryGo implH [] 0 n).1 = _
        rw [hrunH]
      · intro i hi
        simpa using hmemH i hi
  · constructor
    · show (retryGo (implA query) [] 0 n).2 = n
      rw [hrunA]
    · refine ⟨chainA, ?_, ?_⟩
      · show (retryGo (implA query) [] 0 n).1 = _
        rw [hrunA]
      · intro i hi
        simpa using hmemA i hi

/-- Witness for C3: three attempts that all fail with distinct errors. -/
theorem retry_exhaustion_witness :
    (get_height (fun i => .error (toString i)) 3).2 = 3
    ∧ ∃ chain, (get_height (fun i => .error (toString i)) 3).1 = .error chain
      ∧ ∀ i, i < 3 → toString i ∈ chain :=
  (@retry_exhaustion Nat 3 (fun i => toString i)
    (fun i => .error (toString i)) ⟨0, none, ⟨∅, ∅, ∅⟩⟩
    (fun _ i => .error (toString i))
    (fun i _ => rfl) (fun i _ => rfl)).1

/-- C9: on a successful HTTP response, `get_height_impl` returns the
deserialised `height` field of the JSON body, and 0 when the field is
absent; `get_height` with a positive retry budget returns the same value. -/
theorem get_height_success (h : Option Nat) (n : Nat) :
    get_height_impl (.ok ⟨true, .ok ⟨h⟩⟩) = .ok (h.getD 0)
    ∧ (∀ m, h = some m → get_height_impl (.ok ⟨true, .ok ⟨h⟩⟩) = .ok m)
    ∧ (h = none → get_height_impl (.ok ⟨true, .ok ⟨h⟩⟩) = .ok 0)
    ∧ (get_height (fun _ => get_height_impl (.ok ⟨true, .ok ⟨h⟩⟩)) (n + 1)).1
        = .ok (h.getD 0) := by
  refine ⟨rfl, ?_, ?_, ?_⟩
  · intro m hm
    rw [hm]
    rfl
  · intro hm
    rw [hm]
    rfl
  · rfl

/-- Witness for C9 at present and absent heights. -/
theorem get_height_success_witness :
    get_height_impl (.ok ⟨true, .ok ⟨some 5⟩⟩) = .ok 5
    ∧ get_height_impl (.ok ⟨true, .ok ⟨none⟩⟩) = .ok 0
    ∧ (get_height (fun _ => get_height_impl (.ok ⟨true, .ok ⟨some 5⟩⟩)) 12).1 = .ok 5 :=
  ⟨(get_height_success (some 5) 0).2.1 5 rfl,
   (get_height_success none 0).2.2.1 rfl,
   (get_height_success (some 5) 11).2.2.2⟩

/-- C4 counterexample: with the default configuration
(`retry_base_ms = 200`, `retry_backoff_ms = 500`, `retry_ceiling_ms = 5000`)
the base is saturated before attempt 11 and a zero jitter draw gives a delay
of 5000 ms, strictly below the lower bound
`retry_base_ms + i * retry_backoff_ms = 5200` asserted by the claim. -/
theorem backoff_claim_counterexample :
    baseSeq 200 500 5000 10 = min (200 + 10 * 500) 5000
    ∧ fastrange_64 0 500 = 0
    ∧ delayBeforeAttempt 200 500 5000 10 0 = 5000
    ∧ ¬ (200 + 10 * 500 ≤ delayBeforeAttempt 200 500 5000 10 0) := by
  refine ⟨by decide, by decide, by decide, by decide⟩

lemma fastrange_64_lt (x p : Nat) (hp : 0 < p) : fastrange_64 x p < p := by
  unfold fastrange_64
  have hx : x % 2 ^ 64 < 2 ^ 64 := Nat.mod_lt _ (by positivity)
  rw [Nat.div_lt_iff_lt_mul (by positivity : 0 < (2 : Nat) ^ 64)]
  calc x % 2 ^ 64 * p < 2 ^ 64 * p := mul_lt_mul_of_pos_right hx hp
  _ = p * 2 ^ 64 := by ring

/-- C4 amended: provided `retry_base_ms ≤ retry_ceiling_ms`, the base delay
before attempt `i+1` equals `min (retry_base_ms + i * retry_backoff_ms)
retry_ceiling_ms`, the jitter lies in `[0, retry_backoff_ms)`, and hence
every inter-attempt delay lies in the half-open interval from
`min (retry_base_ms + i * retry_backoff_ms) retry_ceiling_ms` to
`retry_ceiling_ms + retry_backoff_ms`. -/
theorem backoff_delay_bounds (B b c i x : Nat) (hBc : B ≤ c) (hb : 0 < b) :
    baseSeq B b c i = min (B + i * b) c
    ∧ fastrange_64 x b < b
    ∧ min (B + i * b) c ≤ delayBeforeAttempt B b c i x
    ∧ delayBeforeAttempt B b c i x < c + b := by
  have hbase : baseSeq B b c i = min (B + i * b) c := by
    induction i with
    | zero => simp [baseSeq, Nat.min_eq_left hBc]
    | succ k ih =>
      show min (baseSeq B b c k + b) c = _
      rw [ih]
      have hmul : B + (k + 1) * b = B + k * b + b := by ring
      rw [hmul]
      omega
  have hj : fastrange_64 x b < b := fastrange_64_lt x b hb
  refine ⟨hbase, hj, ?_, ?_⟩
  · show min (B + i * b) c ≤ baseSeq B b c i + fastrange_64 x b
    rw [hbase]
    exact Nat.le_add_right _ _
  · show baseSeq B b c i + fastrange_64 x b < c + b
    have hle : baseSeq B b c i ≤ c := by
      rw [hbase]
      exact min_le_right _ _
    omega

/-- Witness for C4 amended, at the default retry configuration. -/
theorem backoff_delay_bounds_witness :
    (200 ≤ 5000) ∧ (0 < 500)
    ∧ (baseSeq 200 500 5000 10 = min (200 + 10 * 500) 5000
      ∧ fastrange_64 77 500 < 500
      ∧ min (200 + 10 * 500) 5000 ≤ delayBeforeAttempt 200 500 5000 10 77
      ∧ delayBeforeAttempt 200 500 5000 10 77 < 5000 + 500) :=
  ⟨by decide, by decide, backoff_delay_bounds 200 500 5000 10 77 (by decide) (by decide)⟩

/-- Modelled from the spec: the ordered-drain step of the dispatch pool of
section 4.5 (stream.rs, source not available). Given the identifiers whose
HTTP calls have completed (`done`), the forwarder repeatedly takes the head
of the FIFO while that head has completed, emitting it; it stops at the
first head still in flight. Returns (emitted prefix, remaining FIFO). -/
def drainReady (done : List Nat) : List Nat → List Nat × List Nat
  | [] => ([], [])
  | h :: t =>
    if h ∈ done then (h :: (drainReady done t).1, (drainReady done t).2)
    else ([], h :: t)

/-- Modelled from the spec: the dispatch pool of section 4.5 (stream.rs,
source not available). `fifo` holds the sub-query identifiers in submission
order, `done` the identifiers already completed, and the third argument is
the order in which the in-flight HTTP calls complete. After each completion
the forwarder drains every ready head; the returned list is the order in
which results are written to the output channel. -/
def runPool : List Nat → List Nat → List Nat → List Nat
  | _, _, [] => []
  | fifo, done, c :: cs =>
    (drainReady (c :: done) fifo).1
      ++ runPool (drainReady (c :: done) fifo).2 (c :: done) cs

lemma drainReady_append (done : List Nat) :
    ∀ f : List Nat, (drainReady done f).1 ++ (drainReady done f).2 = f
  | [] => rfl
  | h :: t => by
    by_cases hm : h ∈ done
    · simp only [drainReady, if_pos hm, List.cons_append]
      rw [drainReady_append done t]
    · simp [drainReady, hm]

lemma drainReady_rest_head (done : List Nat) :
    ∀ (f : List Nat) (h : Nat) (t : List Nat),
      (drainReady done f).2 = h :: t → h ∉ done
  | [], h, t => by
    intro hh
    simp [drainReady] at hh
  | a :: f', h, t => by
    intro hh
    by_cases hm : a ∈ done
    · simp only [drainReady, if_pos hm] at hh
      exact drainReady_rest_head done f' h t hh
    · simp only [drainReady, if_neg hm] at hh
      injection hh with h1 _
      rw [← h1]
      exact hm

lemma runPool_complete :
    ∀ (comps fifo done : List Nat),
      (∀ x ∈ fifo, x ∈ done ∨ x ∈ comps) →
      (∀ h t, fifo = h :: t → h ∉ done) →
      runPool fifo done comps = fifo
  | [], fifo, done, hcov, hhead => by
    cases fifo with
    | nil => rfl
    | cons h t =>
      exfalso
      rcases hcov h (by simp) with hd | hc
      · exact hhead h t rfl hd
      · simp at hc
  | c :: cs, fifo, done, hcov, hhead => by
    show (drainReady (c :: done) fifo).1
      ++ runPool (drainReady (c :: done) fifo).2 (c :: done) cs = fifo
    have hrest : runPool (drainReady (c :: done) fifo).2 (c :: done) cs
        = (drainReady (c :: done) fifo).2 := by
      apply runPool_complete cs
      · intro x hx
        have hxf : x ∈ fifo := by
          rw [← drainReady_append (c :: done) fifo]
          exact List.mem_append_right _ hx
        rcases hcov x hxf with hd | hc
        · exact Or.inl (List.mem_cons_of_mem _ hd)
        · rcases List.mem_cons.mp hc with rfl | hcs
          · exact Or.inl (List.mem_cons_self _ _)
          · exact Or.inr hcs
      · intro h t hht
        exact drainReady_rest_head (c :: done) fifo h t hht
    rw [hrest]
    exact drainReady_append (c :: done) fifo

/-- C1: whatever order the underlying HTTP calls complete in (any permutation
of the submitted sub-query identifiers), the dispatch pool delivers results
on the output channel in sub-query submission order, so the delivered
responses are the submitted sub-queries' responses in submission order. -/
theorem dispatch_pool_order {α : Type} (tasks comps : List Nat)
    (resp : Nat → ArrowResponse α) (hperm : comps.Perm tasks) :
    runPool tasks [] comps = tasks
    ∧ (runPool tasks [] comps).map resp = tasks.map resp := by
  have h : runPool tasks [] comps = tasks := by
    apply runPool_complete
    · intro x hx
      exact Or.inr (hperm.mem_iff.mpr hx)
    · intro h t _ hh
      simp at hh
  exact ⟨h, by rw [h]⟩

/-- Witness for C1: three sub-queries whose HTTP calls complete in reverse
order are still delivered as 0, 1, 2. -/
theorem dispatch_pool_order_witness :
    runPool [0, 1, 2] [] [2, 1, 0] = [0, 1, 2]
    ∧ (runPool [0, 1, 2] [] [2, 1, 0]).map
        (fun i => (⟨some i, i, 0, ⟨[], [], [], [], []⟩, none⟩ : ArrowResponse Nat))
      = [0, 1, 2].map
        (fun i => (⟨some i, i, 0, ⟨[], [], [], [], []⟩, none⟩ : ArrowResponse Nat)) :=
  dispatch_pool_order [0, 1, 2] [2, 1, 0]
    (fun i => (⟨some i, i, 0, ⟨[], [], [], [], []⟩, none⟩ : ArrowResponse Nat))
    (by decide)

/-- Modelled from the spec: one sub-query of the partitioner (section 4.4,
stream.rs source not available): the original query narrowed to the window
starting at `cursor` with span `batch`, clamped to `hi`. -/
def subQueryAt (q : Query) (hi batch cursor : Nat) : Query :=
  { q with from_block := cursor, to_block := some (min (cursor + batch) hi) }

/-- Modelled from the spec: the query partitioner of section 4.4 (stream.rs,
source not available). `nexts` is the sequence of `next_block` cursors the
server reports; sub-queries are emitted while the cursor is below `hi`. -/
def subQueries (q : Query) (hi batch : Nat) : Nat → List Nat → List Query
  | cursor, [] => if cursor < hi then [subQueryAt q hi batch cursor] else []
  | cursor, n :: rest =>
    if cursor < hi then subQueryAt q hi batch cursor :: subQueries q hi batch n rest
    else []

lemma subQueries_field_selection (q : Query) (hi batch : Nat) :
    ∀ (nexts : List Nat) (cursor : Nat) (sq : Query),
      sq ∈ subQueries q hi batch cursor nexts → sq.field_selection = q.field_selection
  | [], cursor, sq => by
    intro hsq
    by_cases hc : cursor < hi
    · simp only [subQueries, if_pos hc, List.mem_singleton] at hsq
      rw [hsq]
      rfl
    · simp [subQueries, hc] at hsq
  | n :: rest, cursor, sq => by
    intro hsq
    by_cases hc : cursor < hi
    · simp only [subQueries, if_pos hc, List.mem_cons] at hsq
      rcases hsq with rfl | h2
      · rfl
      · exact subQueries_field_selection q hi batch rest n sq h2
    · simp [subQueries, hc] at hsq

/-- C8: the event-join augmenter is applied exactly by the event-mode APIs.
`collect_events`, `stream_events` and `get_events` consult the transport
only at the augmented query (and `get_events` is `get` at the augmented
query), while `get`, `get_arrow`, `collect`, `collect_arrow`, `stream` and
`stream_arrow` consult it only at the original query, whose field selection
the partitioner also preserves on every emitted sub-query. -/
theorem augmenter_scope {α β ε R Q' : Type} (q : Query) (config : StreamConfig) :
    (∀ (conv : ArrowResponse α → QueryResponse β)
       (s1 s2 : Query → List (Except String (ArrowResponse α))), s1 q = s2 q →
        collect conv config q s1 = collect conv config q s2)
    ∧ (∀ (conv : ArrowResponse α → QueryResponse β)
         (s1 s2 : Query → List (Except String (ArrowResponse α))), s1 q = s2 q →
        stream conv config q s1 = stream conv config q s2)
    ∧ (∀ (s1 s2 : Query → List (Except String (ArrowResponse α))), s1 q = s2 q →
        stream_arrow q s1 = stream_arrow q s2)
    ∧ (∀ (s1 s2 : Query → List (Except String (ArrowResponse α))), s1 q = s2 q →
        collect_arrow config q s1 = collect_arrow config q s2)
    ∧ (∀ (conv : R → Q') (i1 i2 : Query → Nat → Except String R) (n : Nat),
        i1 q = i2 q → get conv q i1 n = get conv q i2 n)
    ∧ (∀ (i1 i2 : Query → Nat → Except String R) (n : Nat),
        i1 q = i2 q → get_arrow q i1 n = get_arrow q i2 n)
    ∧ (∀ (conv : ArrowResponse α → QueryResponse β) (toEvents : ResponseData β → List ε)
         (s1 s2 : Query → List (Except String (ArrowResponse α))),
        s1 (add_event_join_fields_to_selection q)
          = s2 (add_event_join_fields_to_selection q) →
        collect_events conv toEvents config q s1 = collect_events conv toEvents config q s2)
    ∧ (∀ (convE : ArrowResponse α → EventResponse ε)
         (s1 s2 : Query → List (Except String (ArrowResponse α))),
        s1 (add_event_join_fields_to_selection q)
          = s2 (add_event_join_fields_to_selection q) →
        stream_events convE config q s1 = stream_events convE config q s2)
    ∧ (∀ (conv : R → Q') (impl_ : Query → Nat → Except String R) (n : Nat),
        get_events conv q impl_ n
          = get conv (add_event_join_fields_to_selection q) impl_ n)
    ∧ (∀ (hi batch cursor : Nat) (nexts : List Nat) (sq : Query),
        sq ∈ subQueries q hi batch cursor nexts →
        sq.field_selection = q.field_selection) := by
  refine ⟨?_, ?_, ?_, ?_, ?_, ?_, ?_, ?_, ?_, ?_⟩
  · intro conv s1 s2 h
    simp only [collect, h]
  · intro conv s1 s2 h
    simp only [stream, h]
  · intro s1 s2 h
    simp only [stream_arrow, h]
  · intro s1 s2 h
    simp only [collect_arrow, h]
  · intro conv i1 i2 n h
    simp only [get, get_arrow, h]
  · intro i1 i2 n h
    simp only [get_arrow, h]
  · intro conv toEvents s1 s2 h
    simp only [collect_events, h]
  · intro convE s1 s2 h
    simp only [stream_events, h]
  · intro conv impl_ n
    rfl
  · intro hi batch cursor nexts sq hsq
    exact subQueries_field_selection q hi batch nexts cursor sq hsq

/-- Witness for C8: two transports that agree at the (augmented) query give
identical results, and `get_events` equals `get` on the augmented query. -/
theorem augmenter_scope_witness :
    collect (fun r : ArrowResponse Nat =>
        ({ archive_height := r.archive_height, next_block := r.next_block,
           total_execution_time := r.total_execution_time,
           data := ⟨r.data.blocks, r.data.transactions, r.data.logs, r.data.traces⟩,
           rollback_guard := r.rollback_guard } : QueryResponse Nat))
      ⟨none, none, none, none, none, none, none, false⟩
      ⟨5, none, ⟨∅, ∅, {"data"}⟩⟩
      (fun _ => ([] : List (Except String (ArrowResponse Nat))))
    = collect (fun r : ArrowResponse Nat =>
        ({ archive_height := r.archive_height, next_block := r.next_block,
           total_execution_time := r.total_execution_time,
           data := ⟨r.data.blocks, r.data.transactions, r.data.logs, r.data.traces⟩,
           rollback_guard := r.rollback_guard } : QueryResponse Nat))
      ⟨none, none, none, none, none, none, none, false⟩
      ⟨5, none, ⟨∅, ∅, {"data"}⟩⟩
      (fun qq => if qq = ⟨5, none, ⟨∅, ∅, {"data"}⟩⟩ then []
        else [Except.error "other query"])
    ∧ get_events (fun r : ArrowResponse Nat => r.next_block)
        ⟨5, none, ⟨∅, ∅, {"data"}⟩⟩ (fun _ _ => Except.error "down") 3
      = get (fun r : ArrowResponse Nat => r.next_block)
        (add_event_join_fields_to_selection ⟨5, none, ⟨∅, ∅, {"data"}⟩⟩)
        (fun _ _ => Except.error "down") 3 :=
  ⟨(@augmenter_scope Nat Nat Nat Nat Nat
      ⟨5, none, ⟨∅, ∅, {"data"}⟩⟩
      ⟨none, none, none, none, none, none, none, false⟩).1
      _ _ _ (by simp),
   (@augmenter_scope Nat Nat Nat (ArrowResponse Nat) Nat
      ⟨5, none, ⟨∅, ∅, {"data"}⟩⟩
      ⟨none, none, none, none, none, none, none, false⟩).2.2.2.2.2.2.2.2.1
      (fun r : ArrowResponse Nat => r.next_block) (fun _ _ => Except.error "down") 3⟩

end Hypersync
